import Mathlib

/-!
Verification development for the condition expression algebra of
`src/simulator/condition.py` (repository Ceilopty/LL).

The module builds boolean trading-signal expressions over a tabular time
series: leaf predicates `Status` (one-bar comparison) and `Action`
(two-bar transition), set combinators `All` / `Any` / `Not` with
construction-time simplification and interning, the sentinels
`AnyTime` / `NoTime`, and the aggregate `Count` whose evaluation sums the
0/1-coerced member results.

Embedding choices:
* numeric cell values and levels are modelled as `Int` (the source coerces
  levels with `float(...)`; for the integer levels the claims use, the
  order structure is identical);
* a table is a row count plus total column functions (the claims only
  concern tables whose columns cover the expressions);
* a `level` operand is a numeric constant or a named column (the source
  additionally allows `Count` and `Interval` levels, which no claim
  exercises);
* interned expression objects are identified with their canonical
  interning key, so an `All`/`Any`/`Not` value is its class tag plus its
  canonically ordered member list; the process-wide interning registries
  and the one place where an interned object is mutated
  (`_Set.pop` called from `_Set.__new__` on double negation) are modelled
  separately as explicit state machines;
* Python raising is modelled with `Except String`.
-/

/-- Comparison tokens of `Status` (condition.py lines 299-307):
`lt`, `le`, `gt`, `ge`, `eq`, `ne`. -/
inductive SOp where
  | lt | le | gt | ge | eq | ne
deriving DecidableEq, Repr

/-- Direction tokens of `Action` (condition.py lines 212-216). -/
inductive ADir where
  | cross_up | touch_up | cross_down | touch_down
deriving DecidableEq, Repr

/-- Level operand of a leaf predicate: a numeric constant (`float(level)`,
condition.py line 90) or a named column (`Indicator(level)`, line 86). -/
inductive Lv where
  | num (x : Int)
  | col (name : String)
deriving DecidableEq, Repr

mutual
/-- Interned condition-expression objects of condition.py, identified with
their canonical interning keys: the sentinels `_AnyTime`/`_NoTime`
(lines 338-373), the leaf predicates `Status`/`Action` (the key is class
name, indicator, direction and level, line 91), and the set combinators
`Not`/`All`/`Any` whose key is the class name plus the canonically sorted
member tuple (lines 445-498).  `Count` is not a member type of the set
combinators (line 417) and is modelled separately. -/
inductive CondE where
  | anyTime : CondE
  | noTime : CondE
  | status (ind : String) (op : SOp) (level : Lv) : CondE
  | action (ind : String) (dir : ADir) (level : Lv) : CondE
  | notC (m : CondE) : CondE
  | allC (ms : CList) : CondE
  | anyC (ms : CList) : CondE
deriving DecidableEq, Repr

/-- Member list of a set combinator (a Python `set`, rendered canonically
ordered). -/
inductive CList where
  | nil : CList
  | cons (c : CondE) (cs : CList) : CList
deriving DecidableEq, Repr
end

def CList.toList : CList → List CondE
  | .nil => []
  | .cons c cs => c :: cs.toList

def CList.ofList : List CondE → CList
  | [] => .nil
  | c :: cs => .cons c (CList.ofList cs)

/-- Tabular time series: a row count and total column functions
(row `i` of column `c` is `col c i`). -/
structure TableE where
  n : Nat
  col : String → Nat → Int

/-- Elementwise comparison dispatched from the `__lt__`/`__le__`/... method
names (`Status.__init__` builds `self._op = f'__{direction}__'`,
condition.py line 307). -/
def SOp.apply : SOp → Int → Int → Bool
  | .lt, a, b => decide (a < b)
  | .le, a, b => decide (a ≤ b)
  | .gt, a, b => decide (a > b)
  | .ge, a, b => decide (a ≥ b)
  | .eq, a, b => decide (a = b)
  | .ne, a, b => decide (a ≠ b)

/-- The `dir_map` of `Action.__init__` (condition.py lines 212-216), as the
pair `(pre_op, tar_op)`. -/
def dirMap : ADir → SOp × SOp
  | .cross_up => (.le, .gt)
  | .touch_up => (.lt, .ge)
  | .cross_down => (.ge, .lt)
  | .touch_down => (.gt, .le)

/-- Current-row value of a level operand (`tar_level`, condition.py
lines 234-242 and 320-327). -/
def lvAt (T : TableE) : Lv → Nat → Int
  | .num x, _ => x
  | .col c, i => T.col c i

/-- Previous-row value of a level operand at row `j+1`
(`pre_level = tar_level.shift(1)`, condition.py lines 239 and 242): the
constant itself, or the column at row `j`. -/
def lvPrevAt (T : TableE) : Lv → Nat → Int
  | .num x, _ => x
  | .col c, j => T.col c j

mutual
/-- Evaluation of an expression on a table: the `__call__` methods of
condition.py.

* `_AnyTime.__call__` / `_NoTime.__call__` (lines 359-360): a constant
  boolean series of the table's row count.
* `Status.__call__` (lines 309-328): compare the current row of the
  indicator column with the level.
* `Action.__call__` (lines 220-246): `tar_meth(tar_level) &
  pre_meth(pre_level)` where `pre = target.shift(1)`; at row 0 the shifted
  value is missing (`NaN`) and every comparison on it is false, so the
  previous-row conjunct is false there.
* `Not` via `_Set.__call__` (lines 513-517) with one member: the
  `__invert__` conductor (lines 33-39) negates the member's evaluation
  elementwise.
* `All`/`Any` via `_Set.__call__` with two or more members:
  `reduce` of the elementwise `__and__`/`__or__` conductor over the member
  set (line 516); with fewer than two members the conductor's unary branch
  calls `Series.__and__`/`Series.__or__` with a missing operand and the
  call raises `TypeError`. -/
def evalE : CondE → TableE → Except String (List Bool)
  | .anyTime, T => .ok (List.replicate T.n true)
  | .noTime, T => .ok (List.replicate T.n false)
  | .status ind op lv, T =>
      .ok ((List.range T.n).map fun i => op.apply (T.col ind i) (lvAt T lv i))
  | .action ind dir lv, T =>
      .ok ((List.range T.n).map fun i =>
        (dirMap dir).2.apply (T.col ind i) (lvAt T lv i) &&
        (match i with
         | 0 => false
         | j+1 => (dirMap dir).1.apply (T.col ind j) (lvPrevAt T lv j)))
  | .notC m, T => (evalE m T).map (List.map (fun b => !b))
  | .allC ms, T => do
      let evs ← evalCL ms T
      match evs with
      | e1 :: e2 :: rest =>
          .ok ((e2 :: rest).foldl (fun acc e => List.zipWith (fun a b => a && b) acc e) e1)
      | _ => .error "TypeError: Series.__and__ missing required operand"
  | .anyC ms, T => do
      let evs ← evalCL ms T
      match evs with
      | e1 :: e2 :: rest =>
          .ok ((e2 :: rest).foldl (fun acc e => List.zipWith (fun a b => a || b) acc e) e1)
      | _ => .error "TypeError: Series.__or__ missing required operand"

/-- Evaluation of every member of a set, in member order. -/
def evalCL : CList → TableE → Except String (List (List Bool))
  | .nil, _ => .ok []
  | .cons c cs, T => do
      let e ← evalE c T
      let es ← evalCL cs T
      .ok (e :: es)
end

/-- Class tag of a set combinator under construction (`cls` in
`_Set.__new__`). -/
inductive SetCls where
  | sAll | sAny | sNot
deriving DecidableEq, Repr

/-- Instance-of-`Condition` test (leaves and the sentinels; the set
combinators `Not`/`All`/`Any` subclass `_Set`, not `Condition`). -/
def isCondition : CondE → Bool
  | .anyTime => true
  | .noTime => true
  | .status _ _ _ => true
  | .action _ _ _ => true
  | _ => false

/-- Leaf predicate test (`Status` or `Action`). -/
def isLeaf : CondE → Bool
  | .status _ _ _ => true
  | .action _ _ _ => true
  | _ => false

def isNotE : CondE → Bool
  | .notC _ => true
  | _ => false

def isAllE : CondE → Bool
  | .allC _ => true
  | _ => false

def isAnyE : CondE → Bool
  | .anyC _ => true
  | _ => false

/-- Instance-of-`All`-or-`Any` test (line 453). -/
def isSetE (c : CondE) : Bool := isAllE c || isAnyE c

def isCondOrNot (c : CondE) : Bool := isCondition c || isNotE c

/-- Unwrapping performed by `Condition.__gt__` on a `Not` operand
(`value = value.copy().pop()`, lines 129-130), and by the contradiction
check (`n.copy().pop()`, line 439). -/
def unwrapIfNot : CondE → CondE
  | .notC m => m
  | c => c

/-- Member list of a set-combinator instance; `_unique` iterates these
(lines 65-69). -/
def membersOf : CondE → List CondE
  | .allC ms => ms.toList
  | .anyC ms => ms.toList
  | .notC m => [m]
  | _ => []

def memB (x : CondE) (l : List CondE) : Bool := decide (x ∈ l)

/-- Union of Python sets (`set.update`): keep the elements already present,
append the new ones. -/
def sunion (l1 l2 : List CondE) : List CondE :=
  l1 ++ l2.filter (fun x => !(memB x l1))

/-- Difference of Python sets (`set.difference_update`). -/
def setDiff (l1 l2 : List CondE) : List CondE :=
  l1.filter (fun x => !(memB x l2))

/-- The `_unique` helper (lines 65-69): union of the member sets of the
given set instances. -/
def unionMembers (l : List CondE) : List CondE :=
  l.foldl (fun acc c => sunion acc (membersOf c)) []

/-- Deduplication `args = tuple(set(args))` (line 432).  A Python set has
no specified order; we fix the first-occurrence order.  The canonical key
is produced by sorting afterwards, so the result of construction is
order-independent exactly when the sort order is consistent. -/
def dedupF : List CondE → List CondE
  | [] => []
  | x :: xs => x :: (dedupF xs).filter (fun y => decide (y ≠ x))

/-- Class name used as the first component of comparison and interning
keys. -/
def clsNameE : CondE → String
  | .anyTime => "_AnyTime"
  | .noTime => "_NoTime"
  | .status _ _ _ => "Status"
  | .action _ _ _ => "Action"
  | .notC _ => "Not"
  | .allC _ => "All"
  | .anyC _ => "Any"

/-- Stored `_direction` of a `Status` after `__init__` remaps the token
through `dir_repr_map` (lines 299-306). -/
def sOpStr : SOp → String
  | .lt => "<"
  | .le => "<="
  | .gt => ">"
  | .ge => ">="
  | .eq => "=="
  | .ne => "!="

/-- Stored `_direction` of an `Action` (the raw token). -/
def aDirStr : ADir → String
  | .cross_up => "cross_up"
  | .touch_up => "touch_up"
  | .cross_down => "cross_down"
  | .touch_down => "touch_down"

/-- Indicator component used by `Condition.__gt__` (lines 135-148): the
column-name string for leaves, `repr(self)` for the sentinels
(`_AnyTime.__init__`, line 352). -/
def indStrE : CondE → String
  | .anyTime => "AnyTime"
  | .noTime => "NoTime"
  | .status ind _ _ => ind
  | .action ind _ _ => ind
  | _ => ""

/-- Stored `_direction` component used by `Condition.__gt__`
(lines 149-150). -/
def dirStrE : CondE → String
  | .status _ op _ => sOpStr op
  | .action _ dir _ => aDirStr dir
  | _ => ""

/-- Stored `_level` of a leaf.  The sentinels store the empty string; their
levels are never compared (two conditions reach the level comparison only
with equal class names, and equal-class sentinels are the identical
instance), so a placeholder is returned for them. -/
def levelOfE : CondE → Lv
  | .status _ _ lv => lv
  | .action _ _ lv => lv
  | _ => .num 0

/-- Truthiness of `self._level > value._level` (line 151).  Two numeric
constants compare as numbers.  As soon as an `Indicator` (column-reference
level) is involved, the comparison dispatches to `Count.__gt__` or the
reflected `Count.__lt__` (lines 594-596), which CONSTRUCTS a `Status`
object; a `Status` instance is truthy, so the comparison yields true in
both directions. -/
def lvGtB : Lv → Lv → Bool
  | .num x, .num y => decide (y < x)
  | _, _ => true

/-- Lexicographic code-point comparison of character lists: Python's `<`
on strings. -/
def strLtL : List Char → List Char → Bool
  | [], [] => false
  | [], _ :: _ => true
  | _ :: _, [] => false
  | a :: as, b :: bs =>
      if a.toNat < b.toNat then true
      else if b.toNat < a.toNat then false
      else strLtL as bs

/-- Python's `<` on strings (lexicographic by code point). -/
def strLtB (s t : String) : Bool := strLtL s.data t.data

/-- The body of `Condition.__gt__` after the operand has been unwrapped and
checked to be a `Condition` (lines 133-151): compare class name, then
indicator, then direction, then level. -/
def condGtB (s v : CondE) : Bool :=
  if clsNameE s ≠ clsNameE v then strLtB (clsNameE v) (clsNameE s)
  else if indStrE s ≠ indStrE v then strLtB (indStrE v) (indStrE s)
  else if dirStrE s ≠ dirStrE v then strLtB (dirStrE v) (dirStrE s)
  else lvGtB (levelOfE s) (levelOfE v)

/-- The `Condition.__gt__` method: unwrap a `Not` operand; `none` models
`NotImplemented` when the operand is not then a `Condition`. -/
def pyGt (s v : CondE) : Option Bool :=
  let v := unwrapIfNot v
  if isCondition v then some (condGtB s v) else none

/-- Python evaluation of the expression `a < b` during the canonical-key
sort and `min`/`max`.  `Condition` carries `functools.total_ordering`, so
for a `Condition` left operand `a < b` is `not a.__gt__(b) and a != b`
(`!=` is identity, which on interned objects coincides with structural
equality).  A `Not` left operand has no ordering methods, so Python falls
back to the reflected `b.__gt__(a)`; if that is also unavailable the
comparison raises `TypeError`. -/
def pyLt (a b : CondE) : Except String Bool :=
  if isCondition a then
    match pyGt a b with
    | some g => .ok (!g && decide (a ≠ b))
    | none => .error "TypeError: '<' not supported between these instances"
  else if isNotE a then
    if isCondition b then
      match pyGt b a with
      | some g => .ok g
      | none => .error "TypeError: '<' not supported between these instances"
    else .error "TypeError: '<' not supported between these instances"
  else .error "TypeError: '<' not supported between these instances"

/-- Insertion step of the canonical-key sort `sorted(args)` (line 447):
place `x` before the first element it compares below. -/
def pyInsert (x : CondE) : List CondE → Except String (List CondE)
  | [] => .ok [x]
  | y :: ys => do
      let b ← pyLt x y
      if b then .ok (x :: y :: ys)
      else do
        let r ← pyInsert x ys
        .ok (y :: r)

/-- The canonical-key sort `sorted(args)`.  On two elements this performs
exactly Python's single comparison; on longer lists the comparison
sequence differs from CPython's binary-insertion sort but the result
agrees whenever the comparisons are consistent. -/
def pySort (l : List CondE) : Except String (List CondE) :=
  l.foldlM (fun acc x => pyInsert x acc) []

/-- Truthiness of an expression object: the sentinels define
`__bool__ = False` (lines 362-363); a `_Set` defines `__len__`, so its
truthiness is whether its member set is nonempty; a plain `Condition` is
truthy by default. -/
def boolE : CondE → Bool
  | .anyTime => false
  | .noTime => false
  | .allC ms => decide (ms.toList.length ≠ 0)
  | .anyC ms => decide (ms.toList.length ≠ 0)
  | _ => true

/-- Interned instance determined by a class tag and a canonically ordered
member list.  The `sNot` case is reachable only with a singleton list
(more than one argument to `Not` raises before any key is built). -/
def mkTag : SetCls → List CondE → CondE
  | .sAll, ms => .allC (.ofList ms)
  | .sAny, ms => .anyC (.ofList ms)
  | .sNot, ms => .notC (ms.headD .anyTime)

/-- The construction function `_Set.__new__` (condition.py lines 405-506),
returning the interned instance an expression construction produces, or
the exception it raises.  `fuel` bounds the recursion of lines 481
(`All(*and_set)`, `Any(*or_set)`); the source recursion terminates because
members shrink, and every theorem below uses a fuel that is ample for its
inputs.  The mutation performed on line 424 (`args[0].pop()` pops from the
interned instance's live member set) is modelled separately by
`notConstruct`; here the canonical single member is returned, which is the
behaviour on a freshly built `Not`. -/
def setNew : Nat → SetCls → List CondE → Except String CondE
  | 0, _, _ => .error "recursion fuel exhausted"
  | fuel+1, cls, args =>
    let peel : Option (Except String CondE) :=
      match args, cls with
      -- empty member set (lines 409-414)
      | [], .sAll => some (.ok .anyTime)
      | [], .sAny => some (.ok .noTime)
      | [], .sNot => some (.error "ValueError: Not cannot be empty.")
      -- single-argument peeling (lines 421-428)
      | [.notC m], .sNot => some (.ok m)
      | [.notC m], _ => some (.ok (.notC m))
      | [_], .sNot => none
      | [a], _ => some (.ok a)
      -- more than one argument to Not (lines 429-430)
      | _, .sNot => some (.error "ValueError: Too much for Not.")
      | _, _ => none
    match peel with
    | some r => r
    | none =>
      let dargs := dedupF args
      -- single distinct member after deduplication (lines 433-435)
      if dargs.length = 1 && isCondition (dargs.headD .anyTime) && !(cls = .sNot) then
        .ok (dargs.headD .anyTime)
      else if dargs.all isCondOrNot then
        -- every argument is a Condition or a Not (lines 436-447)
        let notIns := dargs.filter isNotE
        let conIns := dargs.filter fun c => !(isNotE c)
        let collapse := notIns.any fun nn => memB (unwrapIfNot nn) conIns
        if collapse && cls = .sAny then .ok .anyTime
        else if collapse && cls = .sAll then .ok .noTime
        else do
          let sorted ← pySort dargs
          .ok (mkTag cls sorted)
      else
        -- at least one All/Any among the arguments (lines 448-498)
        let setIns := dargs.filter isSetE
        let conIns := dargs.filter fun c => !(isSetE c)
        let andIns := setIns.filter isAllE
        let orIns := setIns.filter isAnyE
        let andSet0 := unionMembers andIns
        let orSet0 := unionMembers orIns
        let parts :=
          if cls = .sAll then
            let aS := sunion andSet0 conIns
            let oS := setDiff orSet0 aS
            if oS.length = 1 then (sunion aS oS, ([] : List CondE)) else (aS, oS)
          else if cls = .sAny then
            let oS := sunion orSet0 conIns
            let aS := setDiff andSet0 oS
            if aS.length = 1 then (([] : List CondE), sunion oS aS) else (aS, oS)
          else (andSet0, orSet0)
        do
          let allPart ← setNew fuel .sAll parts.1
          let anyPart ← setNew fuel .sAny parts.2
          if !(boolE allPart) then .ok anyPart
          else if !(boolE anyPart) then .ok allPart
          else if isCondition allPart && isCondition anyPart then
            if allPart = anyPart then .ok allPart
            else do
              let lt1 ← pyLt anyPart allPart
              let minP := if lt1 then anyPart else allPart
              let maxP := if condGtB anyPart allPart then anyPart else allPart
              .ok (mkTag cls [minP, maxP])
          else
            .ok (mkTag cls [allPart, anyPart])

/-- Construction `All(*args)`. -/
def mkAll (args : List CondE) : Except String CondE := setNew 12 .sAll args

/-- Construction `Any(*args)`. -/
def mkAny (args : List CondE) : Except String CondE := setNew 12 .sAny args

/-- Construction `Not(*args)`. -/
def mkNot (args : List CondE) : Except String CondE := setNew 12 .sNot args

/-- Key of the per-class `Condition` interning registry
(`Condition.__new__`, line 91): class name, indicator, raw
direction/comparison token, and the converted level. -/
structure CKey where
  cls : String
  ind : String
  dirTok : String
  level : Lv
deriving DecidableEq, Repr

/-- State of a `Condition` interning registry together with an allocation
counter: distinct allocation ids model distinct object identities. -/
structure CAlloc where
  nextId : Nat
  cache : List (CKey × Nat)
deriving DecidableEq, Repr

def CAlloc.lookup (st : CAlloc) (k : CKey) : Option Nat :=
  (st.cache.find? (fun p => decide (p.1 = k))).map (fun p => p.2)

def cAllocInit : CAlloc := ⟨0, []⟩

/-- The registry step of `Condition.__new__` (condition.py lines 84-98):
on a cache miss a new instance is allocated and stored in
`cls._collections` immediately; on a hit the cached instance is returned.
Either way the instance id for the key is returned BEFORE `__init__` runs
any validation. -/
def conditionNew (st : CAlloc) (k : CKey) : Nat × CAlloc :=
  match st.lookup k with
  | some i => (i, st)
  | none => (st.nextId, ⟨st.nextId + 1, (k, st.nextId) :: st.cache⟩)

/-- Tokens accepted by `Status.__init__` (`dir_repr_map`, lines 299-305). -/
def statusTokens : List String := ["lt", "le", "gt", "ge", "eq", "ne"]

/-- Tokens accepted by `Action.__init__` (`dir_map`, lines 212-216). -/
def actionTokens : List String :=
  ["cross_up", "touch_up", "cross_down", "touch_down"]

/-- Full construction `Status(ind, tok, level)`: Python runs
`Condition.__new__` (which caches) and THEN `Status.__init__`, whose
`dir_repr_map[direction]` lookup raises `KeyError` on an unknown token
(line 306).  The cache update of `__new__` is not rolled back. -/
def statusConstruct (st : CAlloc) (ind tok : String) (lv : Lv) :
    Except String Nat × CAlloc :=
  let r := conditionNew st ⟨"Status", ind, tok, lv⟩
  (if tok ∈ statusTokens then .ok r.1
   else .error "KeyError: unknown comparison token", r.2)

/-- Full construction `Action(ind, tok, level)`: `Action.__init__`'s
`dir_map[direction]` lookup (line 217) raises `KeyError` on an unknown
token, after `Condition.__new__` has already cached the instance. -/
def actionConstruct (st : CAlloc) (ind tok : String) (lv : Lv) :
    Except String Nat × CAlloc :=
  let r := conditionNew st ⟨"Action", ind, tok, lv⟩
  (if tok ∈ actionTokens then .ok r.1
   else .error "KeyError: unknown direction token", r.2)

/-- State of the `Not` interning registry: for each interned `Not` instance
(keyed by the member it was constructed from) the CURRENT contents of its
`_set` slot.  `_Set.__init__` fills `_set` once from `_init` and deletes
`_init` (lines 508-511), so re-retrieving a cached instance does not
refill the set. -/
abbrev NotReg := List (CondE × List CondE)

def lookupN (st : NotReg) (k : CondE) : Option (List CondE) :=
  (st.find? (fun p => decide (p.1 = k))).map (fun p => p.2)

def updateN (st : NotReg) (k : CondE) (v : List CondE) : NotReg :=
  st.map (fun p => if p.1 = k then (k, v) else p)

/-- Stateful construction `Not(arg)` (`_Set.__new__` with `cls = Not`),
tracking the live member sets of the interned `Not` instances.

* If `arg` is itself a `Not` instance, line 424 executes
  `return args[0].pop()`: the pop removes an element from the interned
  instance's live `_set` WITHOUT copying (contrast `n.copy().pop()` on
  line 439 and `self.copy().pop()` on lines 37 and 592), mutating the
  cached object; on an emptied set it raises `KeyError`.
* If `arg` is a plain `Condition`, the construction interns a fresh
  instance with member set containing exactly `arg` (or returns the cached
  instance untouched).
* If `arg` is an `All`/`Any`, the nested branch of `_Set.__new__` returns
  the argument itself (see `setNew`); no registry change. -/
def notConstruct (st : NotReg) (arg : CondE) : Except String CondE × NotReg :=
  match arg with
  | .notC m =>
      match lookupN st m with
      | some (h :: t) => (.ok h, updateN st m t)
      | some [] => (.error "KeyError: pop from an empty set", st)
      | none => (.error "unregistered Not instance", st)
  | .allC ms => (.ok (.allC ms), st)
  | .anyC ms => (.ok (.anyC ms), st)
  | c =>
      match lookupN st c with
      | some _ => (.ok (.notC c), st)
      | none => (.ok (.notC c), (c, [c]) :: st)

/-- Integer coercion `.apply(int)` of a boolean evaluation
(`_operators_conductor` with `_bool` set, lines 28-30). -/
def b2i (b : Bool) : Int := if b then 1 else 0

/-- Evaluation `Count.__call__` (condition.py lines 588-592) of a `Count`
instance with the given member set.

* With two or more members: `reduce` of the `add` conductor over the
  members — the elementwise sum of the 0/1-coerced member evaluations
  (further summands are already integers, so the repeated `int` coercion
  is the identity on them).
* With exactly one member the code runs
  `func(self.copy().pop())(df)`: the conductor's unary branch then
  evaluates `self.copy().pop()` on the POPPED MEMBER — a plain `Condition`
  has no `copy` attribute (`AttributeError`), and for a set member
  `Series.add` is called without its required `other` argument
  (`TypeError`); either way the call raises. -/
def countEval (ms : List CondE) (T : TableE) : Except String (List Int) :=
  match ms with
  | m1 :: m2 :: rest => do
      let e1 ← evalE m1 T
      let e2 ← evalE m2 T
      let erest ← rest.mapM (fun m => evalE m T)
      .ok (erest.foldl
            (fun acc e => List.zipWith (fun a b => a + b) acc (e.map b2i))
            (List.zipWith (fun a b => a + b) (e1.map b2i) (e2.map b2i)))
  | [_] => .error "AttributeError or TypeError: single-member Count evaluation"
  | [] => .error "KeyError: pop from an empty set"

/-- Leaf level is a numeric constant (not a column reference). -/
def isNumLv : CondE → Bool
  | .status _ _ (.num _) => true
  | .action _ _ (.num _) => true
  | _ => false

/-- Canonically sorted pair: the result of `sorted([p, q])` on two distinct
leaf conditions, whose single comparison `q < p` is
`not q.__gt__(p) and q != p`. -/
def pairSorted (p q : CondE) : List CondE :=
  if condGtB q p then [p, q] else [q, p]

/-- Concrete seven-row table with column `J = [-1, 0, 0, 1, 0, 0, -1]`
from the `Action` docstring (condition.py lines 182-191). -/
def tblJ7 : TableE :=
  ⟨7, fun c i => if c = "J" then [-1, 0, 0, 1, 0, 0, -1].getD i 0 else 0⟩

theorem CList.toList_ofList (l : List CondE) : (CList.ofList l).toList = l := by
  induction l with
  | nil => rfl
  | cons c cs ih => simp [CList.ofList, CList.toList, ih]

theorem dedupF_pair (a b : CondE) :
    dedupF [a, b] = if b = a then [a] else [a, b] := by
  by_cases h : b = a <;> simp [dedupF, h]

theorem mem_dedupF {c : CondE} {l : List CondE} : c ∈ dedupF l ↔ c ∈ l := by
  induction l with
  | nil => simp [dedupF]
  | cons x xs ih =>
      by_cases hcx : c = x
      · simp [dedupF, hcx]
      · simp [dedupF, hcx, List.mem_filter, ih]

theorem isCondition_of_leaf {c : CondE} (h : isLeaf c = true) :
    isCondition c = true := by
  cases c <;> simp_all [isLeaf, isCondition]

theorem isCondOrNot_of_cond {c : CondE} (h : isCondition c = true) :
    isCondOrNot c = true := by
  simp [isCondOrNot, h]

theorem isCondOrNot_of_leaf {c : CondE} (h : isLeaf c = true) :
    isCondOrNot c = true :=
  isCondOrNot_of_cond (isCondition_of_leaf h)

theorem isNotE_of_cond {c : CondE} (h : isCondition c = true) :
    isNotE c = false := by
  cases c <;> simp_all [isCondition, isNotE]

theorem isNotE_of_leaf {c : CondE} (h : isLeaf c = true) : isNotE c = false :=
  isNotE_of_cond (isCondition_of_leaf h)

theorem unwrapIfNot_of_cond {c : CondE} (h : isCondition c = true) :
    unwrapIfNot c = c := by
  cases c <;> simp_all [isCondition, unwrapIfNot]

theorem unwrapIfNot_of_leaf {c : CondE} (h : isLeaf c = true) :
    unwrapIfNot c = c :=
  unwrapIfNot_of_cond (isCondition_of_leaf h)

theorem zipWith_and_self (l : List Bool) :
    List.zipWith (fun a b => a && b) l l = l := by
  induction l with
  | nil => rfl
  | cons x xs ih => simp [ih]

theorem zipWith_or_self (l : List Bool) :
    List.zipWith (fun a b => a || b) l l = l := by
  induction l with
  | nil => rfl
  | cons x xs ih => simp [ih]

theorem zipWith_and_replicate (l : List Bool) (n : Nat) (h : l.length = n) :
    List.zipWith (fun a b => a && b) l (List.replicate n true) = l := by
  induction l generalizing n with
  | nil => simp
  | cons x xs ih =>
      cases n with
      | zero => simp at h
      | succ m =>
          simp only [List.replicate, List.zipWith, Bool.and_true]
          rw [ih m (by simpa using h)]

theorem evalE_leaf_ok {p : CondE} (hp : isLeaf p = true) (T : TableE) :
    ∃ l, evalE p T = .ok l ∧ l.length = T.n := by
  cases p with
  | status ind op lv => exact ⟨_, rfl, by simp [List.length_map]⟩
  | action ind dir lv => exact ⟨_, rfl, by simp [List.length_map]⟩
  | anyTime => simp [isLeaf] at hp
  | noTime => simp [isLeaf] at hp
  | notC m => simp [isLeaf] at hp
  | allC ms => simp [isLeaf] at hp
  | anyC ms => simp [isLeaf] at hp

theorem exc_ok_bind {α β : Type} (a : α) (f : α → Except String β) :
    (Except.ok a >>= f) = f a := rfl

theorem pyLt_cond {p q : CondE} (hp : isCondition p = true)
    (hq : isCondition q = true) :
    pyLt q p = .ok (!condGtB q p && decide (q ≠ p)) := by
  simp [pyLt, pyGt, hp, hq, unwrapIfNot_of_cond hp]

theorem setNew_empty_all (f : Nat) : setNew (f+1) .sAll [] = .ok .anyTime := rfl

theorem setNew_empty_any (f : Nat) : setNew (f+1) .sAny [] = .ok .noTime := rfl

theorem setNew_pair_dup (f : Nat) {cls : SetCls} (hcls : cls ≠ .sNot)
    {p : CondE} (hp : isCondition p = true) :
    setNew (f+1) cls [p, p] = .ok p := by
  cases cls with
  | sNot => exact absurd rfl hcls
  | sAll =>
      simp [setNew, dedupF_pair, hp]
  | sAny =>
      simp [setNew, dedupF_pair, hp]

theorem setNew_pair_cond (f : Nat) {cls : SetCls} (hcls : cls ≠ .sNot)
    {p q : CondE} (hp : isCondition p = true) (hq : isCondition q = true)
    (hpq : p ≠ q) :
    setNew (f+1) cls [p, q] = .ok (mkTag cls (pairSorted p q)) := by
  have hq' : (q = p) = False := by simp [Ne.symm hpq]
  cases cls with
  | sNot => exact absurd rfl hcls
  | sAll =>
      simp [setNew, dedupF_pair, hq', isCondOrNot_of_cond hp, isCondOrNot_of_cond hq,
        isNotE_of_cond hp, isNotE_of_cond hq, pySort, pyInsert, pyLt, hp, hq, pyGt,
        unwrapIfNot_of_cond hp, unwrapIfNot_of_cond hq, Ne.symm hpq, pairSorted]
      cases hgt : condGtB q p <;>
        simp [exc_ok_bind, pyInsert, pyLt_cond hp hq, hgt, Ne.symm hpq]
  | sAny =>
      simp [setNew, dedupF_pair, hq', isCondOrNot_of_cond hp, isCondOrNot_of_cond hq,
        isNotE_of_cond hp, isNotE_of_cond hq, pySort, pyInsert, pyLt, hp, hq, pyGt,
        unwrapIfNot_of_cond hp, unwrapIfNot_of_cond hq, Ne.symm hpq, pairSorted]
      cases hgt : condGtB q p <;>
        simp [exc_ok_bind, pyInsert, pyLt_cond hp hq, hgt, Ne.symm hpq]

theorem mkAll_pair_dup {p : CondE} (hp : isCondition p = true) :
    mkAll [p, p] = .ok p :=
  setNew_pair_dup 11 (by simp) hp

theorem mkAny_pair_dup {p : CondE} (hp : isCondition p = true) :
    mkAny [p, p] = .ok p :=
  setNew_pair_dup 11 (by simp) hp

theorem mkAll_pair {p q : CondE} (hp : isCondition p = true)
    (hq : isCondition q = true) (hpq : p ≠ q) :
    mkAll [p, q] = .ok (.allC (.ofList (pairSorted p q))) :=
  setNew_pair_cond 11 (by simp) hp hq hpq

theorem mkAny_pair {p q : CondE} (hp : isCondition p = true)
    (hq : isCondition q = true) (hpq : p ≠ q) :
    mkAny [p, q] = .ok (.anyC (.ofList (pairSorted p q))) :=
  setNew_pair_cond 11 (by simp) hp hq hpq

theorem mkNot_leaf {p : CondE} (hp : isLeaf p = true) :
    mkNot [p] = .ok (.notC p) := by
  cases p with
  | status ind op lv =>
      simp [mkNot, setNew, dedupF, pySort, pyInsert, exc_ok_bind, mkTag,
        isCondOrNot, isCondition, isNotE]
  | action ind dir lv =>
      simp [mkNot, setNew, dedupF, pySort, pyInsert, exc_ok_bind, mkTag,
        isCondOrNot, isCondition, isNotE]
  | anyTime => simp [isLeaf] at hp
  | noTime => simp [isLeaf] at hp
  | notC m => simp [isLeaf] at hp
  | allC ms => simp [isLeaf] at hp
  | anyC ms => simp [isLeaf] at hp

theorem evalE_allC_pair {u v : CondE} {T : TableE} {eu ev : List Bool}
    (hu : evalE u T = .ok eu) (hv : evalE v T = .ok ev) :
    evalE (.allC (.ofList [u, v])) T = .ok (List.zipWith (fun a b => a && b) eu ev) := by
  simp [evalE, evalCL, CList.ofList, hu, hv, exc_ok_bind]

theorem evalE_anyC_pair {u v : CondE} {T : TableE} {eu ev : List Bool}
    (hu : evalE u T = .ok eu) (hv : evalE v T = .ok ev) :
    evalE (.anyC (.ofList [u, v])) T = .ok (List.zipWith (fun a b => a || b) eu ev) := by
  simp [evalE, evalCL, CList.ofList, hu, hv, exc_ok_bind]

/-- C1: for any two leaf predicates p and q and any table, evaluating the
constructed All(p,q) yields the row-wise logical AND of the evaluations of
p and q, evaluating Any(p,q) yields the row-wise OR, and evaluating Not(p)
yields the row-wise NOT of the evaluation of p. -/
theorem c1_combinator_eval (p q : CondE) (hp : isLeaf p = true)
    (hq : isLeaf q = true) (T : TableE) :
    ∃ ep eq1, evalE p T = .ok ep ∧ evalE q T = .ok eq1 ∧
      (mkAll [p, q]).bind (fun c => evalE c T)
        = .ok (List.zipWith (fun a b => a && b) ep eq1) ∧
      (mkAny [p, q]).bind (fun c => evalE c T)
        = .ok (List.zipWith (fun a b => a || b) ep eq1) ∧
      (mkNot [p]).bind (fun c => evalE c T)
        = .ok (ep.map (fun b => !b)) := by
  obtain ⟨ep, hep, -⟩ := evalE_leaf_ok hp T
  obtain ⟨eq1, heq, -⟩ := evalE_leaf_ok hq T
  refine ⟨ep, eq1, hep, heq, ?_, ?_, ?_⟩
  · by_cases hpq : p = q
    · subst hpq
      have h2 : eq1 = ep := by
        rw [hep] at heq
        injection heq with h
        exact h.symm
      subst h2
      rw [mkAll_pair_dup (isCondition_of_leaf hp)]
      simp [Except.bind, hep, zipWith_and_self]
    · rw [mkAll_pair (isCondition_of_leaf hp) (isCondition_of_leaf hq) hpq]
      unfold pairSorted
      cases hgt : condGtB q p with
      | true => simp [Except.bind, evalE_allC_pair hep heq]
      | false =>
          simp [Except.bind, evalE_allC_pair heq hep,
            List.zipWith_comm_of_comm (fun a b => a && b) Bool.and_comm]
  · by_cases hpq : p = q
    · subst hpq
      have h2 : eq1 = ep := by
        rw [hep] at heq
        injection heq with h
        exact h.symm
      subst h2
      rw [mkAny_pair_dup (isCondition_of_leaf hp)]
      simp [Except.bind, hep, zipWith_or_self]
    · rw [mkAny_pair (isCondition_of_leaf hp) (isCondition_of_leaf hq) hpq]
      unfold pairSorted
      cases hgt : condGtB q p with
      | true => simp [Except.bind, evalE_anyC_pair hep heq]
      | false =>
          simp [Except.bind, evalE_anyC_pair heq hep,
            List.zipWith_comm_of_comm (fun a b => a || b) Bool.or_comm]
  · rw [mkNot_leaf hp]
    simp [Except.bind, Except.map, evalE, hep]

/-- C2: an Action is true on a row exactly when the direction's
previous-row operator holds between the previous row's value and the level
AND the current-row operator holds between the current row's value and the
level, with row 0 (which has no previous row) always false; and on the
table with column J = [-1, 0, 0, 1, 0, 0, -1] and level 0, the four
directions evaluate to exactly the boolean rows the claim lists. -/
theorem c2_action_semantics :
    (∀ (T : TableE) (ind : String) (dir : ADir) (x : Int) (i : Nat), i < T.n →
      ∀ ev, evalE (.action ind dir (.num x)) T = .ok ev →
        (ev[i]? = some true ↔
          ((dirMap dir).2.apply (T.col ind i) x = true ∧
           ∃ j, i = j + 1 ∧ (dirMap dir).1.apply (T.col ind j) x = true)))
  ∧ evalE (.action "J" .touch_up (.num 0)) tblJ7
      = .ok [false, true, false, false, false, false, false]
  ∧ evalE (.action "J" .cross_up (.num 0)) tblJ7
      = .ok [false, false, false, true, false, false, false]
  ∧ evalE (.action "J" .cross_down (.num 0)) tblJ7
      = .ok [false, false, false, false, false, false, true]
  ∧ evalE (.action "J" .touch_down (.num 0)) tblJ7
      = .ok [false, false, false, false, true, false, false] := by
  refine ⟨?_, rfl, rfl, rfl, rfl⟩
  intro T ind dir x i hi ev hev
  simp only [evalE] at hev
  injection hev with hev
  subst hev
  rw [List.getElem?_map, List.getElem?_range hi]
  rcases i with - | j
  · constructor
    · intro h
      simp [lvAt] at h
    · rintro ⟨-, j, hj, -⟩
      exact absurd hj (by omega)
  · constructor
    · intro h
      simp only [Option.map_some', Option.some.injEq, Bool.and_eq_true, lvAt, lvPrevAt] at h
      exact ⟨h.1, j, rfl, h.2⟩
    · rintro ⟨h1, j2, hj, h2⟩
      obtain rfl : j2 = j := by omega
      simp only [Option.map_some', Option.some.injEq, Bool.and_eq_true, lvAt, lvPrevAt]
      exact ⟨h1, h2⟩

theorem strLtL_flip : ∀ {as bs : List Char}, as ≠ bs → strLtL bs as = !strLtL as bs
  | [], [], h => absurd rfl h
  | [], _ :: _, _ => rfl
  | _ :: _, [], _ => rfl
  | a :: as, b :: bs, h => by
      rcases Nat.lt_trichotomy a.toNat b.toNat with hlt | heq | hgt
      · simp [strLtL, hlt, Nat.lt_asymm hlt]
      · have hab : a = b := Char.ext (UInt32.toNat.inj heq)
        subst hab
        have ht : as ≠ bs := fun he => h (by rw [he])
        simp [strLtL, Nat.lt_irrefl, strLtL_flip ht]
      · simp [strLtL, hgt, Nat.lt_asymm hgt]

theorem strLtB_flip {s t : String} (h : s ≠ t) : strLtB t s = !strLtB s t :=
  strLtL_flip (fun hd => h (String.ext hd))

theorem int_lt_flip {x y : Int} (h : x ≠ y) :
    decide (y < x) = !decide (x < y) := by
  rcases lt_trichotomy x y with hlt | heq | hgt
  · simp [hlt, lt_asymm hlt]
  · exact absurd heq h
  · simp [hgt, lt_asymm hgt]

theorem sOpStr_inj {o1 o2 : SOp} (h : sOpStr o1 = sOpStr o2) : o1 = o2 := by
  cases o1 <;> cases o2 <;> first | rfl | exact absurd h (by decide)

theorem aDirStr_inj {d1 d2 : ADir} (h : aDirStr d1 = aDirStr d2) : d1 = d2 := by
  cases d1 <;> cases d2 <;> first | rfl | exact absurd h (by decide)

theorem condGtB_flip {a b : CondE} (ha : isLeaf a = true) (hb : isLeaf b = true)
    (hna : isNumLv a = true) (hnb : isNumLv b = true) (hab : a ≠ b) :
    condGtB a b = !condGtB b a := by
  cases a with
  | status ind1 o1 lv1 =>
    cases lv1 with
    | col c1 => simp [isNumLv] at hna
    | num x1 =>
      cases b with
      | status ind2 o2 lv2 =>
        cases lv2 with
        | col c2 => simp [isNumLv] at hnb
        | num x2 =>
          by_cases hind : ind1 = ind2
          · subst hind
            by_cases hop : o1 = o2
            · subst hop
              have hx : x1 ≠ x2 := fun hx => hab (by rw [hx])
              simp [condGtB, clsNameE, indStrE, dirStrE, levelOfE, lvGtB,
                int_lt_flip hx]
            · have hop' : sOpStr o1 ≠ sOpStr o2 := fun hs => hop (sOpStr_inj hs)
              simp [condGtB, clsNameE, indStrE, dirStrE, hop',
                strLtB_flip hop', Ne.symm hop']
          · simp [condGtB, clsNameE, indStrE, hind, strLtB_flip hind,
              Ne.symm hind]
      | action ind2 d2 lv2 =>
          simp [condGtB, clsNameE]
          decide
      | anyTime => simp [isLeaf] at hb
      | noTime => simp [isLeaf] at hb
      | notC m => simp [isLeaf] at hb
      | allC ms => simp [isLeaf] at hb
      | anyC ms => simp [isLeaf] at hb
  | action ind1 d1 lv1 =>
    cases lv1 with
    | col c1 => simp [isNumLv] at hna
    | num x1 =>
      cases b with
      | action ind2 d2 lv2 =>
        cases lv2 with
        | col c2 => simp [isNumLv] at hnb
        | num x2 =>
          by_cases hind : ind1 = ind2
          · subst hind
            by_cases hop : d1 = d2
            · subst hop
              have hx : x1 ≠ x2 := fun hx => hab (by rw [hx])
              simp [condGtB, clsNameE, indStrE, dirStrE, levelOfE, lvGtB,
                int_lt_flip hx]
            · have hop' : aDirStr d1 ≠ aDirStr d2 := fun hs => hop (aDirStr_inj hs)
              simp [condGtB, clsNameE, indStrE, dirStrE, hop',
                strLtB_flip hop', Ne.symm hop']
          · simp [condGtB, clsNameE, indStrE, hind, strLtB_flip hind,
              Ne.symm hind]
      | status ind2 o2 lv2 =>
          simp [condGtB, clsNameE]
          decide
      | anyTime => simp [isLeaf] at hb
      | noTime => simp [isLeaf] at hb
      | notC m => simp [isLeaf] at hb
      | allC ms => simp [isLeaf] at hb
      | anyC ms => simp [isLeaf] at hb
  | anyTime => simp [isLeaf] at ha
  | noTime => simp [isLeaf] at ha
  | notC m => simp [isLeaf] at ha
  | allC ms => simp [isLeaf] at ha
  | anyC ms => simp [isLeaf] at ha

theorem pairSorted_comm {a b : CondE} (ha : isLeaf a = true) (hb : isLeaf b = true)
    (hna : isNumLv a = true) (hnb : isNumLv b = true) (hab : a ≠ b) :
    pairSorted a b = pairSorted b a := by
  unfold pairSorted
  rw [condGtB_flip ha hb hna hnb hab]
  cases hgt : condGtB b a <;> simp [hgt]

theorem conditionNew_idem (st : CAlloc) (k : CKey) :
    conditionNew (conditionNew st k).2 k = conditionNew st k := by
  cases h : st.lookup k with
  | some i => simp [conditionNew, h]
  | none =>
      simp only [conditionNew, h]
      have : CAlloc.lookup ⟨st.nextId + 1, (k, st.nextId) :: st.cache⟩ k
          = some st.nextId := by
        simp [CAlloc.lookup, List.find?]
      simp [this]

theorem leaf_ne_anyC {x : CondE} (hx : isLeaf x = true) (ms : CList) :
    x ≠ .anyC ms := by
  cases x <;> simp_all [isLeaf]

theorem leaf_ne_allC {x : CondE} (hx : isLeaf x = true) (ms : CList) :
    x ≠ .allC ms := by
  cases x <;> simp_all [isLeaf]

theorem isSetE_of_leaf {c : CondE} (h : isLeaf c = true) : isSetE c = false := by
  cases c <;> simp_all [isLeaf, isSetE, isAllE, isAnyE]

theorem sunion_nil (l : List CondE) : sunion [] l = l := by
  simp [sunion, memB]

theorem setNew_absorb_all (f : Nat) {x y : CondE} (hx : isLeaf x = true)
    (hy : isLeaf y = true) (hxy : x ≠ y) :
    setNew (f+2) .sAll [x, .anyC (.ofList (pairSorted x y))]
      = .ok (.allC (.ofList (pairSorted x y))) := by
  have h1 : setNew (f+1) .sAll [x, y] = .ok (mkTag .sAll (pairSorted x y)) :=
    setNew_pair_cond f (by simp) (isCondition_of_leaf hx) (isCondition_of_leaf hy) hxy
  have h0 : setNew (f+1) .sAny ([] : List CondE) = .ok .noTime := setNew_empty_any f
  cases hgt : condGtB y x <;>
    simp only [pairSorted, hgt, Bool.false_eq_true, if_true, if_false] at h1 ⊢ <;>
    cases x <;> (try simp [isLeaf] at hx) <;>
    cases y <;> (try simp [isLeaf] at hy) <;>
    (rw [setNew]
     simp [h1, h0, exc_ok_bind, hxy, Ne.symm hxy, dedupF, memB, sunion, setDiff,
       unionMembers, membersOf, boolE, mkTag, CList.ofList, CList.toList,
       isCondOrNot, isCondition, isNotE, isSetE, isAllE, isAnyE])
  all_goals intros
  all_goals simp_all

theorem setNew_absorb_any (f : Nat) {x y : CondE} (hx : isLeaf x = true)
    (hy : isLeaf y = true) (hxy : x ≠ y) :
    setNew (f+2) .sAny [x, .allC (.ofList (pairSorted x y))]
      = .ok (.anyC (.ofList (pairSorted x y))) := by
  have h1 : setNew (f+1) .sAny [x, y] = .ok (mkTag .sAny (pairSorted x y)) :=
    setNew_pair_cond f (by simp) (isCondition_of_leaf hx) (isCondition_of_leaf hy) hxy
  have h0 : setNew (f+1) .sAll ([] : List CondE) = .ok .anyTime := setNew_empty_all f
  cases hgt : condGtB y x <;>
    simp only [pairSorted, hgt, Bool.false_eq_true, if_true, if_false] at h1 ⊢ <;>
    cases x <;> (try simp [isLeaf] at hx) <;>
    cases y <;> (try simp [isLeaf] at hy) <;>
    (rw [setNew]
     simp [h1, h0, exc_ok_bind, hxy, Ne.symm hxy, dedupF, memB, sunion, setDiff,
       unionMembers, membersOf, boolE, mkTag, CList.ofList, CList.toList,
       isCondOrNot, isCondition, isNotE, isSetE, isAllE, isAnyE])
  all_goals intros
  all_goals simp_all

/-- C4 amended: for distinct leaf predicates x and y, constructing
All(x, Any(x, y)) returns All(x, y) — the shared member is removed from
the nested Any branch and the remaining singleton is folded into the All
branch — and symmetrically Any(x, All(x, y)) returns Any(x, y).  The
result is not x: the reduction implemented at condition.py lines 464-479
is not Boolean absorption. -/
theorem c4_amended (x y : CondE) (hx : isLeaf x = true) (hy : isLeaf y = true)
    (hxy : x ≠ y) :
    (mkAny [x, y]).bind (fun a => mkAll [x, a]) = mkAll [x, y]
  ∧ (mkAll [x, y]).bind (fun a => mkAny [x, a]) = mkAny [x, y] := by
  constructor
  · rw [mkAny_pair (isCondition_of_leaf hx) (isCondition_of_leaf hy) hxy]
    show setNew 12 .sAll [x, .anyC (.ofList (pairSorted x y))] = _
    rw [setNew_absorb_all 10 hx hy hxy,
      mkAll_pair (isCondition_of_leaf hx) (isCondition_of_leaf hy) hxy]
  · rw [mkAll_pair (isCondition_of_leaf hx) (isCondition_of_leaf hy) hxy]
    show setNew 12 .sAny [x, .allC (.ofList (pairSorted x y))] = _
    rw [setNew_absorb_any 10 hx hy hxy,
      mkAny_pair (isCondition_of_leaf hx) (isCondition_of_leaf hy) hxy]

/-- C4 counterexample: with x = Status('J','ge',0) and
y = Status('J','ge',100), All(x, Any(x, y)) constructs the two-member
conjunction All(x, y), which is not x; symmetrically Any(x, All(x, y))
constructs Any(x, y), which is not x. -/
theorem c4_counterexample :
    (mkAny [.status "J" .ge (.num 0), .status "J" .ge (.num 100)]).bind
        (fun a => mkAll [.status "J" .ge (.num 0), a])
      = .ok (.allC (.cons (.status "J" .ge (.num 0))
          (.cons (.status "J" .ge (.num 100)) .nil)))
  ∧ (CondE.allC (.cons (.status "J" .ge (.num 0))
        (.cons (.status "J" .ge (.num 100)) .nil)))
      ≠ .status "J" .ge (.num 0)
  ∧ (mkAll [.status "J" .ge (.num 0), .status "J" .ge (.num 100)]).bind
        (fun a => mkAny [.status "J" .ge (.num 0), a])
      = .ok (.anyC (.cons (.status "J" .ge (.num 0))
          (.cons (.status "J" .ge (.num 100)) .nil)))
  ∧ (CondE.anyC (.cons (.status "J" .ge (.num 0))
        (.cons (.status "J" .ge (.num 100)) .nil)))
      ≠ .status "J" .ge (.num 0) :=
  ⟨rfl, by decide, rfl, by decide⟩

/-- C3 counterexample: for a = Status('J','ge','K') and
b = Status('J','ge','L'), whose levels are column references, the level
comparison used by the canonical-key sort is truthy in both directions
(each direction constructs a Status object, condition.py lines 594-596),
so the sort keeps the argument order and All(a,b) and All(b,a) intern
under different keys: they are not the identical instance. -/
theorem c3_counterexample :
    mkAll [.status "J" .ge (.col "K"), .status "J" .ge (.col "L")]
      = .ok (.allC (.cons (.status "J" .ge (.col "K"))
          (.cons (.status "J" .ge (.col "L")) .nil)))
  ∧ mkAll [.status "J" .ge (.col "L"), .status "J" .ge (.col "K")]
      = .ok (.allC (.cons (.status "J" .ge (.col "L"))
          (.cons (.status "J" .ge (.col "K")) .nil)))
  ∧ mkAll [.status "J" .ge (.col "K"), .status "J" .ge (.col "L")]
      ≠ mkAll [.status "J" .ge (.col "L"), .status "J" .ge (.col "K")] := by
  refine ⟨rfl, rfl, ?_⟩
  intro h
  rw [show mkAll [.status "J" .ge (.col "K"), .status "J" .ge (.col "L")]
      = .ok (.allC (.cons (.status "J" .ge (.col "K"))
          (.cons (.status "J" .ge (.col "L")) .nil))) from rfl,
    show mkAll [.status "J" .ge (.col "L"), .status "J" .ge (.col "K")]
      = .ok (.allC (.cons (.status "J" .ge (.col "L"))
          (.cons (.status "J" .ge (.col "K")) .nil))) from rfl] at h
  simp at h

/-- C3 amended: constructing Status('J','ge',100) twice returns the
identical interned instance and leaves the registry unchanged; and
All(a,b) and All(b,a) return the identical instance for leaf predicates
whose levels are numeric constants (for which the sort comparison is
consistent).  With column-reference levels the comparison is inconsistent
and the key can depend on argument order (see the counterexample). -/
theorem c3_amended :
    (∀ (st : CAlloc) (ind tok : String) (lv : Lv),
       statusConstruct (statusConstruct st ind tok lv).2 ind tok lv
         = statusConstruct st ind tok lv)
  ∧ (∀ a b : CondE, isLeaf a = true → isLeaf b = true →
       isNumLv a = true → isNumLv b = true → mkAll [a, b] = mkAll [b, a]) := by
  constructor
  · intro st ind tok lv
    simp [statusConstruct, conditionNew_idem]
  · intro a b ha hb hna hnb
    by_cases hab : a = b
    · rw [hab]
    · rw [mkAll_pair (isCondition_of_leaf ha) (isCondition_of_leaf hb) hab,
        mkAll_pair (isCondition_of_leaf hb) (isCondition_of_leaf ha) (Ne.symm hab),
        pairSorted_comm ha hb hna hnb hab]

theorem leaf_ne_notC {p : CondE} (hp : isLeaf p = true) (m : CondE) :
    p ≠ .notC m := by
  cases p <;> simp_all [isLeaf]

theorem length_ne_one_of_two_mem {l : List CondE} {p q : CondE}
    (h1 : p ∈ l) (h2 : q ∈ l) (hpq : p ≠ q) : l.length ≠ 1 := by
  cases l with
  | nil => simp at h1
  | cons a t =>
      cases t with
      | nil =>
          simp at h1 h2
          exact absurd (h1.trans h2.symm) hpq
      | cons b t2 => simp

/-- C5: the first construction of Not(Not(x)) returns x, but
`return args[0].pop()` (condition.py line 424) pops from the interned
Not(x) instance's live member set without copying, so repeating the same
construction finds the cached Not(x) with an emptied set and raises
KeyError instead of returning x. -/
theorem c5_double_negation_bug :
    (notConstruct [] (.status "J" .ge (.num 100))).1
      = .ok (.notC (.status "J" .ge (.num 100)))
  ∧ (notConstruct ((notConstruct [] (.status "J" .ge (.num 100))).2)
        (.notC (.status "J" .ge (.num 100)))).1
      = .ok (.status "J" .ge (.num 100))
  ∧ (notConstruct ((notConstruct [] (.status "J" .ge (.num 100))).2)
        (.status "J" .ge (.num 100))).1
      = .ok (.notC (.status "J" .ge (.num 100)))
  ∧ (notConstruct
        ((notConstruct ((notConstruct [] (.status "J" .ge (.num 100))).2)
            (.notC (.status "J" .ge (.num 100)))).2)
        (.notC (.status "J" .ge (.num 100)))).1
      = .error "KeyError: pop from an empty set" :=
  ⟨rfl, rfl, rfl, rfl⟩

/-- C10: interned expression objects are not immutable: after Not(x) is
interned with member set containing exactly x, constructing Not(Not(x))
empties the stored member set of the cached Not(x) instance (the pop on
condition.py line 424 operates on the live set, not a copy), even though
the construction itself returns x. -/
theorem c10_immutability_bug :
    lookupN ((notConstruct [] (.status "K" .ge (.num 1))).2)
        (.status "K" .ge (.num 1))
      = some [.status "K" .ge (.num 1)]
  ∧ (notConstruct ((notConstruct [] (.status "K" .ge (.num 1))).2)
        (.notC (.status "K" .ge (.num 1)))).1
      = .ok (.status "K" .ge (.num 1))
  ∧ lookupN ((notConstruct ((notConstruct [] (.status "K" .ge (.num 1))).2)
        (.notC (.status "K" .ge (.num 1)))).2)
        (.status "K" .ge (.num 1))
      = some [] :=
  ⟨rfl, rfl, rfl⟩

/-- C6 counterexample: for the nested combinator p = Any(Status('J','le',80),
Status('J','ge',20)), Not(p) returns p itself (the nested branch of
`_Set.__new__` returns the surviving Any part, condition.py lines 483-484),
so All(p, Not(p)) is All(p, p), which collapses to p — not to NoTime; and
Any(p, Not(p)) collapses to p — not to AnyTime. -/
theorem c6_counterexample :
    mkAny [.status "J" .ge (.num 20), .status "J" .le (.num 80)]
      = .ok (.anyC (.cons (.status "J" .le (.num 80))
          (.cons (.status "J" .ge (.num 20)) .nil)))
  ∧ mkNot [.anyC (.cons (.status "J" .le (.num 80))
        (.cons (.status "J" .ge (.num 20)) .nil))]
      = .ok (.anyC (.cons (.status "J" .le (.num 80))
          (.cons (.status "J" .ge (.num 20)) .nil)))
  ∧ mkAll [.anyC (.cons (.status "J" .le (.num 80))
          (.cons (.status "J" .ge (.num 20)) .nil)),
        .anyC (.cons (.status "J" .le (.num 80))
          (.cons (.status "J" .ge (.num 20)) .nil))]
      = .ok (.anyC (.cons (.status "J" .le (.num 80))
          (.cons (.status "J" .ge (.num 20)) .nil)))
  ∧ (CondE.anyC (.cons (.status "J" .le (.num 80))
        (.cons (.status "J" .ge (.num 20)) .nil))) ≠ .noTime
  ∧ mkAny [.anyC (.cons (.status "J" .le (.num 80))
          (.cons (.status "J" .ge (.num 20)) .nil)),
        .anyC (.cons (.status "J" .le (.num 80))
          (.cons (.status "J" .ge (.num 20)) .nil))]
      = .ok (.anyC (.cons (.status "J" .le (.num 80))
          (.cons (.status "J" .ge (.num 20)) .nil)))
  ∧ (CondE.anyC (.cons (.status "J" .le (.num 80))
        (.cons (.status "J" .ge (.num 20)) .nil))) ≠ .anyTime :=
  ⟨rfl, rfl, rfl, by decide, rfl, by decide⟩

/-- C6 amended: the contradiction/tautology short-circuit holds for LEAF
predicates only: for any argument list of leaf predicates and negations of
leaf predicates that contains both p and Not(p) for some leaf p, All(...)
collapses to NoTime and Any(...) collapses to AnyTime (condition.py
lines 436-443).  For a nested-combinator p no Not(p) object exists at all,
so no collapse happens (see the counterexample). -/
theorem c6_amended (args : List CondE) (p : CondE) (hp : isLeaf p = true)
    (hall : ∀ c ∈ args, isCondOrNot c = true)
    (hmem : p ∈ args) (hnmem : .notC p ∈ args) :
    mkAll args = .ok .noTime ∧ mkAny args = .ok .anyTime := by
  have hppn : p ≠ .notC p := leaf_ne_notC hp p
  have hlen1 : (dedupF args).length ≠ 1 :=
    length_ne_one_of_two_mem (mem_dedupF.mpr hmem) (mem_dedupF.mpr hnmem) hppn
  have hall' : (dedupF args).all isCondOrNot = true :=
    List.all_eq_true.mpr fun c hc => hall c (mem_dedupF.mp hc)
  have hcol : ((dedupF args).filter isNotE).any
      (fun nn => memB (unwrapIfNot nn) ((dedupF args).filter fun c => !(isNotE c)))
      = true := by
    refine List.any_eq_true.mpr ⟨.notC p, List.mem_filter.mpr ⟨mem_dedupF.mpr hnmem, rfl⟩, ?_⟩
    show memB p _ = true
    exact decide_eq_true
      (List.mem_filter.mpr ⟨mem_dedupF.mpr hmem, by simp [isNotE_of_leaf hp]⟩)
  rcases args with - | ⟨a, - | ⟨b, t⟩⟩
  · simp at hmem
  · simp at hmem hnmem
    exact absurd (hmem.trans hnmem.symm) hppn
  · constructor
    · show setNew 12 .sAll (a :: b :: t) = .ok .noTime
      rw [setNew]
      simp [hlen1, hall', hcol]
      all_goals intros
      all_goals simp_all
    · show setNew 12 .sAny (a :: b :: t) = .ok .anyTime
      rw [setNew]
      simp [hlen1, hall', hcol]
      all_goals intros
      all_goals simp_all

theorem pairSorted_anyTime {y : CondE} (hy : isLeaf y = true) :
    pairSorted .anyTime y = [y, .anyTime] := by
  cases y with
  | status ind op lv => rfl
  | action ind dir lv => rfl
  | anyTime => simp [isLeaf] at hy
  | noTime => simp [isLeaf] at hy
  | notC m => simp [isLeaf] at hy
  | allC ms => simp [isLeaf] at hy
  | anyC ms => simp [isLeaf] at hy

/-- C7 counterexample: All() & y, that is All(AnyTime, y), constructs the
two-member conjunction All(y, AnyTime) — the sentinel is kept as an
ordinary member, it is not eliminated — so the result is not the object y
itself. -/
theorem c7_counterexample :
    mkAll [.anyTime, .status "J" .ge (.num 7)]
      = .ok (.allC (.cons (.status "J" .ge (.num 7)) (.cons .anyTime .nil)))
  ∧ (CondE.allC (.cons (.status "J" .ge (.num 7)) (.cons .anyTime .nil)))
      ≠ .status "J" .ge (.num 7) :=
  ⟨rfl, by decide⟩

/-- C7 amended: All() returns AnyTime and Any() returns NoTime; but
AnyTime & y constructs the two-member All(AnyTime, y) rather than
returning y itself.  That conjunction still evaluates row-for-row exactly
as y does, so AnyTime is an identity element semantically, not
structurally. -/
theorem c7_amended :
    mkAll [] = .ok .anyTime ∧ mkAny [] = .ok .noTime
  ∧ ∀ (y : CondE) (T : TableE), isLeaf y = true →
      ∃ ey, evalE y T = .ok ey
        ∧ mkAll [.anyTime, y] = .ok (.allC (.ofList [y, .anyTime]))
        ∧ evalE (.allC (.ofList [y, .anyTime])) T = .ok ey := by
  refine ⟨rfl, rfl, ?_⟩
  intro y T hy
  obtain ⟨ey, hey, hlen⟩ := evalE_leaf_ok hy T
  have hne : (CondE.anyTime : CondE) ≠ y := fun h => by
    rw [← h] at hy
    simp [isLeaf] at hy
  refine ⟨ey, hey, ?_, ?_⟩
  · rw [mkAll_pair (rfl : isCondition CondE.anyTime = true) (isCondition_of_leaf hy) hne,
      pairSorted_anyTime hy]
  · rw [evalE_allC_pair hey (rfl : evalE .anyTime T = .ok (List.replicate T.n true)),
      zipWith_and_replicate ey T.n hlen]

/-- C8: evaluating a Count with two (or more) members yields the row-wise
elementwise sum of the members' 0/1-coerced evaluations (never their
logical AND); but a Count built from exactly ONE member cannot be
evaluated at all — `Count.__call__` (condition.py line 592) passes the
popped member to the conductor's unary branch, which needs a `copy`
attribute the member lacks, or calls `Series.add` without its required
operand — so the code raises instead of returning the member's 0/1
coercion as the specified sum semantics requires. -/
theorem c8_count_sum :
    (∀ (p q : CondE) (T : TableE), isLeaf p = true → isLeaf q = true → p ≠ q →
      ∃ ep eq1, evalE p T = .ok ep ∧ evalE q T = .ok eq1 ∧
        countEval [p, q] T
          = .ok (List.zipWith (fun a b => a + b) (ep.map b2i) (eq1.map b2i)))
  ∧ countEval [.status "J" .ge (.num 100)] tblJ7
      = .error "AttributeError or TypeError: single-member Count evaluation" := by
  constructor
  · intro p q T hp hq hpq
    obtain ⟨ep, hep, -⟩ := evalE_leaf_ok hp T
    obtain ⟨eq1, heq, -⟩ := evalE_leaf_ok hq T
    refine ⟨ep, eq1, hep, heq, ?_⟩
    simp [countEval, hep, heq, exc_ok_bind, List.mapM.loop]
  · rfl

theorem lookup_after_new (st : CAlloc) (k : CKey) :
    (conditionNew st k).2.lookup k = some (conditionNew st k).1 := by
  cases h : st.lookup k with
  | some i => simp [conditionNew, h]
  | none =>
      simp only [conditionNew, h]
      simp [CAlloc.lookup, List.find?]

/-- C9 counterexample: Action('J','bogus',0) raises KeyError in
`Action.__init__`, but `Condition.__new__` has already allocated and
cached the instance (id 0) under the key ('Action','J','bogus',0.0), so
after the failed call an instance for that argument combination IS present
in the interning registry. -/
theorem c9_counterexample :
    (actionConstruct cAllocInit "J" "bogus" (.num 0)).1
      = .error "KeyError: unknown direction token"
  ∧ (actionConstruct cAllocInit "J" "bogus" (.num 0)).2.lookup
      ⟨"Action", "J", "bogus", .num 0⟩ = some 0 :=
  ⟨rfl, rfl⟩

/-- C9 amended: constructing an Action or Status with an unrecognized
direction/comparison token raises KeyError at construction time, but the
instance allocated by `Condition.__new__` remains cached in the interning
registry under that argument combination — construction errors are not
atomic. -/
theorem c9_amended :
    (∀ (st : CAlloc) (ind tok : String) (lv : Lv), tok ∉ actionTokens →
       (actionConstruct st ind tok lv).1
           = .error "KeyError: unknown direction token"
         ∧ (actionConstruct st ind tok lv).2.lookup ⟨"Action", ind, tok, lv⟩
           = some (conditionNew st ⟨"Action", ind, tok, lv⟩).1)
  ∧ (∀ (st : CAlloc) (ind tok : String) (lv : Lv), tok ∉ statusTokens →
       (statusConstruct st ind tok lv).1
           = .error "KeyError: unknown comparison token"
         ∧ (statusConstruct st ind tok lv).2.lookup ⟨"Status", ind, tok, lv⟩
           = some (conditionNew st ⟨"Status", ind, tok, lv⟩).1) := by
  constructor
  · intro st ind tok lv h
    exact ⟨by simp [actionConstruct, h], lookup_after_new st _⟩
  · intro st ind tok lv h
    exact ⟨by simp [statusConstruct, h], lookup_after_new st _⟩

theorem c1_combinator_eval_witness :
    ∃ ep eq1, evalE (.status "J" .ge (.num 0)) tblJ7 = .ok ep
      ∧ evalE (.status "K" .lt (.num 5)) tblJ7 = .ok eq1
      ∧ (mkAll [.status "J" .ge (.num 0), .status "K" .lt (.num 5)]).bind
          (fun c => evalE c tblJ7)
        = .ok (List.zipWith (fun a b => a && b) ep eq1)
      ∧ (mkAny [.status "J" .ge (.num 0), .status "K" .lt (.num 5)]).bind
          (fun c => evalE c tblJ7)
        = .ok (List.zipWith (fun a b => a || b) ep eq1)
      ∧ (mkNot [.status "J" .ge (.num 0)]).bind (fun c => evalE c tblJ7)
        = .ok (ep.map (fun b => !b)) :=
  c1_combinator_eval (.status "J" .ge (.num 0)) (.status "K" .lt (.num 5)) rfl rfl tblJ7

theorem c2_action_semantics_witness :
    ([false, true, false, false, false, false, false] : List Bool)[1]?
        = some true
      ↔ ((dirMap .touch_up).2.apply (tblJ7.col "J" 1) 0 = true
         ∧ ∃ j, 1 = j + 1 ∧ (dirMap .touch_up).1.apply (tblJ7.col "J" j) 0 = true) :=
  c2_action_semantics.1 tblJ7 "J" .touch_up 0 1 (by decide)
    [false, true, false, false, false, false, false] rfl

theorem c3_amended_witness :
    statusConstruct (statusConstruct cAllocInit "J" "ge" (.num 100)).2
        "J" "ge" (.num 100)
      = statusConstruct cAllocInit "J" "ge" (.num 100)
  ∧ mkAll [.status "A" .ge (.num 1), .status "B" .ge (.num 2)]
      = mkAll [.status "B" .ge (.num 2), .status "A" .ge (.num 1)] :=
  ⟨c3_amended.1 cAllocInit "J" "ge" (.num 100),
   c3_amended.2 (.status "A" .ge (.num 1)) (.status "B" .ge (.num 2))
     rfl rfl rfl rfl⟩

theorem c4_amended_witness :
    (mkAny [.status "J" .ge (.num 0), .status "J" .ge (.num 100)]).bind
        (fun a => mkAll [.status "J" .ge (.num 0), a])
      = mkAll [.status "J" .ge (.num 0), .status "J" .ge (.num 100)]
  ∧ (mkAll [.status "J" .ge (.num 0), .status "J" .ge (.num 100)]).bind
        (fun a => mkAny [.status "J" .ge (.num 0), a])
      = mkAny [.status "J" .ge (.num 0), .status "J" .ge (.num 100)] :=
  c4_amended (.status "J" .ge (.num 0)) (.status "J" .ge (.num 100))
    rfl rfl (by decide)

theorem c6_amended_witness :
    mkAll [.status "J" .gt (.num 5), .notC (.status "J" .gt (.num 5))]
      = .ok .noTime
  ∧ mkAny [.status "J" .gt (.num 5), .notC (.status "J" .gt (.num 5))]
      = .ok .anyTime :=
  c6_amended [.status "J" .gt (.num 5), .notC (.status "J" .gt (.num 5))]
    (.status "J" .gt (.num 5)) rfl (by decide) (by decide) (by decide)

theorem c7_amended_witness :
    ∃ ey, evalE (.status "J" .ge (.num 7)) tblJ7 = .ok ey
      ∧ mkAll [.anyTime, .status "J" .ge (.num 7)]
        = .ok (.allC (.ofList [.status "J" .ge (.num 7), .anyTime]))
      ∧ evalE (.allC (.ofList [.status "J" .ge (.num 7), .anyTime])) tblJ7
        = .ok ey :=
  c7_amended.2.2 (.status "J" .ge (.num 7)) tblJ7 rfl

theorem c8_count_sum_witness :
    ∃ ep eq1, evalE (.status "J" .ge (.num 1)) tblJ7 = .ok ep
      ∧ evalE (.action "J" .touch_up (.num 0)) tblJ7 = .ok eq1
      ∧ countEval [.status "J" .ge (.num 1), .action "J" .touch_up (.num 0)] tblJ7
        = .ok (List.zipWith (fun a b => a + b) (ep.map b2i) (eq1.map b2i)) :=
  c8_count_sum.1 (.status "J" .ge (.num 1)) (.action "J" .touch_up (.num 0))
    tblJ7 rfl rfl (by decide)

theorem c9_amended_witness :
    ((actionConstruct cAllocInit "J" "zigzag" (.num 0)).1
        = .error "KeyError: unknown direction token"
      ∧ (actionConstruct cAllocInit "J" "zigzag" (.num 0)).2.lookup
          ⟨"Action", "J", "zigzag", .num 0⟩
        = some (conditionNew cAllocInit ⟨"Action", "J", "zigzag", .num 0⟩).1)
  ∧ ((statusConstruct cAllocInit "J" "zig" (.num 3)).1
        = .error "KeyError: unknown comparison token"
      ∧ (statusConstruct cAllocInit "J" "zig" (.num 3)).2.lookup
          ⟨"Status", "J", "zig", .num 3⟩
        = some (conditionNew cAllocInit ⟨"Status", "J", "zig", .num 3⟩).1) :=
  ⟨c9_amended.1 cAllocInit "J" "zigzag" (.num 0) (by decide),
   c9_amended.2 cAllocInit "J" "zig" (.num 3) (by decide)⟩
